import Mathlib

/-!
Shallow embedding of the OpenAPI importer of this repository
(class OpenAPIImporter in src/src/index.ts) and proofs about it.

The importer works over untyped JavaScript values produced by
JSON.parse / yaml.parse, accesses properties dynamically and relies on
JavaScript truthiness for its defaulting logic, so the embedding starts
from a JS-value tree with explicit truthiness, and models `undefined`
(a missing property) as `Option.none`.
-/

set_option maxHeartbeats 1000000

namespace OpenAPIImporter

/-- A JavaScript/JSON-like runtime value, as produced by JSON.parse or
yaml.parse.  An object is an ordered association list holding the JS
object's own properties in the engine's own-property order, with
pairwise distinct keys.  Note that for a parsed document this stored
order is not always the document's key order: the engine places
array-index-like keys (canonical numeric strings below 2^32 - 1, e.g.
status codes) first in ascending numeric order, then the remaining keys
in document order — `esOwnPropertyOrder` below computes the stored order
from document-order pairs. -/
inductive JSValue where
| vNull : JSValue
| vBool : Bool → JSValue
| vNum : Int → JSValue
| vStr : String → JSValue
| vArr : List JSValue → JSValue
| vObj : List (String × JSValue) → JSValue

/-- Key lookup in an object's field list (parsed JS objects have distinct
keys, so first-match lookup agrees with JS property access). -/
def lookupField : List (String × JSValue) → String → Option JSValue
| [], _ => none
| (k, v) :: rest, key => if k = key then some v else lookupField rest key

/-- JS property access `v[key]`: `none` models `undefined` (a missing key,
or access on a non-object primitive).  Access on a null base throws a
TypeError in JS rather than yielding undefined; theorems whose source
path performs such an access therefore hypothesise the base non-null. -/
def JSValue.getField : JSValue → String → Option JSValue
| .vObj fields, key => lookupField fields key
| _, _ => none

/-- Whether a value is JS null (the one base value on which property
access throws instead of giving undefined). -/
def JSValue.isNull : JSValue → Bool
| .vNull => true
| _ => false

/-- JS truthiness: null, false, 0, and the empty string are falsy; every
object, array and non-empty string is truthy. -/
def JSValue.truthy : JSValue → Bool
| .vNull => false
| .vBool b => b
| .vNum n => n != 0
| .vStr s => s != ""
| .vArr _ => true
| .vObj _ => true

/-- Object.entries: the key/value pairs of an object in its stored
own-property order; a string yields its index/character pairs; other
primitives yield nothing.  Where a document section's keys can be array
indices (numeric status codes under `responses`), the stored order
differs from document order — see `esOwnPropertyOrder`; path templates,
MIME types and the importer's other keys are never array indices, so for
those objects stored order and document order coincide. -/
def JSValue.entries : JSValue → List (String × JSValue)
| .vObj fields => fields
| .vStr s => s.toList.enum.map (fun p => (toString p.1, .vStr (String.singleton p.2)))
| _ => []

/-- The numeric value of an ECMAScript array-index key: a canonical
decimal string (digits only, no leading zero except the single digit 0)
whose value is below 2^32 - 1; `none` for every other key. -/
def arrayIndexValue (s : String) : Option Nat :=
  match s.toList with
  | [] => none
  | c :: cs =>
    if (c :: cs).all Char.isDigit then
      if c = '0' ∧ cs ≠ [] then none
      else
        let n := (c :: cs).foldl (fun acc d => acc * 10 + (d.toNat - 48)) 0
        if n < 4294967295 then some n else none
    else none

/-- Insert one field into a list sorted by ascending array-index value
(only called on fields whose keys are array indices). -/
def insertByIndexValue (e : String × JSValue) :
    List (String × JSValue) → List (String × JSValue)
| [] => [e]
| x :: xs =>
  if (arrayIndexValue e.1).getD 0 < (arrayIndexValue x.1).getD 0 then e :: x :: xs
  else x :: insertByIndexValue e xs

/-- Insertion sort by ascending array-index value (keys are pairwise
distinct in a parsed object, so ties never arise). -/
def sortByIndexValue : List (String × JSValue) → List (String × JSValue)
| [] => []
| x :: xs => insertByIndexValue x (sortByIndexValue xs)

/-- The own-property order of the object a JS engine creates from
key/value pairs inserted in document order (JSON.parse / yaml.parse do
exactly that): array-index-like keys first in ascending numeric order,
then the remaining keys in document order. -/
def esOwnPropertyOrder (fields : List (String × JSValue)) : List (String × JSValue) :=
  sortByIndexValue (fields.filter (fun e => (arrayIndexValue e.1).isSome)) ++
    fields.filter (fun e => (arrayIndexValue e.1).isNone)

/-- The content entries the response loop iterates for one response
value: the entries of `response.content` when that is truthy, nothing
otherwise. -/
def responseContentEntries (response : JSValue) : List (String × JSValue) :=
  match response.getField "content" with
  | some c => if c.truthy then c.entries else []
  | none => []

/-- View a value as an array (the importer only reaches this on arrays or
on the defaulted `[]`; a truthy non-array would fail at runtime in the
source, which none of the settled claims exercise). -/
def JSValue.asArr : JSValue → List JSValue
| .vArr xs => xs
| _ => []

/-- Truthiness of a possibly-`undefined` value (`undefined` is falsy). -/
def truthyOpt : Option JSValue → Bool
| none => false
| some v => v.truthy

/-- JS `a || b` where `a` is a possibly-`undefined` property access:
yields `a` when truthy, otherwise the default. -/
def jsOr (v : Option JSValue) (dflt : JSValue) : JSValue :=
  match v with
  | some x => if x.truthy then x else dflt
  | none => dflt

/-- Errors observable from the importer.  `raw` stands for any error that
is neither an OpenAPIImportError nor a ValidationError (file-system
errors, network errors, SyntaxError from a deserializer, ...);
`importError` is OpenAPIImportError with its optional retained cause;
`validationError` is ValidationError with its ordered violation list. -/
inductive JSError where
| raw : String → String → JSError
| importError : String → Option JSError → JSError
| validationError : String → List String → JSError

/-- `e instanceof ValidationError`. -/
def JSError.isValidationError : JSError → Bool
| .validationError _ _ => true
| _ => false

/-- `e instanceof OpenAPIImportError` (ValidationError extends
OpenAPIImportError, so both constructors qualify). -/
def JSError.isOpenAPIImportError : JSError → Bool
| .importError _ _ => true
| .validationError _ _ => true
| .raw _ _ => false

/-- The two source formats the importer distinguishes. -/
inductive Format where
| json : Format
| yaml : Format
deriving DecidableEq

/-- The external deserializers (JSON.parse and yaml.parse), abstracted:
each turns text into a value or fails with some error. -/
structure Deserializers where
  jsonParse : String → Except JSError JSValue
  yamlParse : String → Except JSError JSValue

/-- The HTTPMethod union type of the source. -/
inductive HTTPMethod where
| GET | POST | PUT | DELETE | PATCH | HEAD | OPTIONS
deriving DecidableEq

/-- `method.toLowerCase()` for the seven method names. -/
def HTTPMethod.lower : HTTPMethod → String
| .GET => "get"
| .POST => "post"
| .PUT => "put"
| .DELETE => "delete"
| .PATCH => "patch"
| .HEAD => "head"
| .OPTIONS => "options"

/-- The fixed method list of extractEndpoints, in source order. -/
def httpMethods : List HTTPMethod :=
  [.GET, .POST, .PUT, .DELETE, .PATCH, .HEAD, .OPTIONS]

/-- Extracted API metadata (fields are whatever the document held;
`none` models `undefined`). -/
structure APIInfo where
  title : Option JSValue
  version : Option JSValue
  description : Option JSValue

/-- Extracted parameter.  `required` and `schema` carry the runtime value
produced by `x || default` (the TS annotations promise a boolean and a
schema, but the code passes the document's value through when truthy). -/
structure Parameter where
  name : Option JSValue
  «in» : Option JSValue
  required : JSValue
  schema : JSValue
  description : Option JSValue

/-- Extracted media type entry: one per content key. -/
structure MediaType where
  mimeType : String
  schema : Option JSValue

/-- Extracted request body. -/
structure RequestBody where
  required : JSValue
  content : List MediaType

/-- Extracted response: one per status-code key. -/
structure ResponseSchema where
  statusCode : String
  description : JSValue
  content : Option (List MediaType)

/-- Extracted endpoint. -/
structure Endpoint where
  path : String
  method : HTTPMethod
  operationId : Option JSValue
  summary : Option JSValue
  parameters : List Parameter
  requestBody : Option RequestBody
  responses : List ResponseSchema

/-- Extracted components (verbatim passthrough of the three sections). -/
structure Components where
  schemas : Option JSValue
  parameters : Option JSValue
  responses : Option JSValue

/-- The terminal output of one import call. -/
structure OpenAPISpecification where
  info : APIInfo
  endpoints : List Endpoint
  components : Option Components
  raw : JSValue

/-- JS `s.toLowerCase()`, modelled per character (the suffixes the
importer tests are ASCII). -/
def jsToLowerCase (s : String) : String :=
  String.mk (s.toList.map Char.toLower)

/-- JS `s.endsWith(suf)`. -/
def jsEndsWith (s suf : String) : Bool :=
  List.isSuffixOf suf.toList s.toList

/-- detectFormat: lower-case the path and test the `.yaml` / `.yml`
suffixes; everything else is JSON. -/
def detectFormat (filePath : String) : Format :=
  let ext := jsToLowerCase filePath
  if jsEndsWith ext ".yaml" || jsEndsWith ext ".yml" then Format.yaml else Format.json

/-- The deserializer the parseDocument branch selects for a format. -/
def rawDeserialize (d : Deserializers) (format : Format) (content : String) :
    Except JSError JSValue :=
  match format with
  | .yaml => d.yamlParse content
  | .json => d.jsonParse content

/-- parseDocument: run the selected deserializer inside try/catch,
re-raising any failure as OpenAPIImportError with the fixed message and
the original cause. -/
def parseDocument (d : Deserializers) (content : String) (format : Format) :
    Except JSError JSValue :=
  match rawDeserialize d format content with
  | .ok v => .ok v
  | .error e => .error (.importError "Failed to parse document" (some e))

/-- The `errors` array built by validateSpec, in push order: openapi,
then info (or its two sub-fields), then paths. -/
def validationMessages (document : JSValue) : List String :=
  let errors : List String :=
    if truthyOpt (document.getField "openapi") then []
    else ["Missing required field: openapi"]
  let errors :=
    if truthyOpt (document.getField "info") then
      let info := (document.getField "info").getD .vNull
      let errors :=
        if truthyOpt (info.getField "title") then errors
        else errors ++ ["Missing required field: info.title"]
      if truthyOpt (info.getField "version") then errors
      else errors ++ ["Missing required field: info.version"]
    else errors ++ ["Missing required field: info"]
  if truthyOpt (document.getField "paths") then errors
  else errors ++ ["Missing required field: paths"]

/-- validateSpec: collect every missing-field message, then throw a
ValidationError carrying the whole list when it is non-empty. -/
def validateSpec (document : JSValue) : Except JSError Unit :=
  let errors := validationMessages document
  if 0 < errors.length then
    .error (.validationError "OpenAPI specification validation failed" errors)
  else
    .ok ()

/-- extractInfo: direct field copies from `document.info` (only reached
after validation, which guarantees the argument is present and truthy). -/
def extractInfo (info : JSValue) : APIInfo :=
  { title := info.getField "title"
    version := info.getField "version"
    description := info.getField "description" }

/-- The per-entry body of extractParameters' `parameters.map`. -/
def extractParameter (param : JSValue) : Parameter :=
  { name := param.getField "name"
    «in» := param.getField "in"
    required := jsOr (param.getField "required") (.vBool false)
    schema := jsOr (param.getField "schema") (.vObj [("type", .vStr "string")])
    description := param.getField "description" }

/-- extractParameters: `parameters.map(param => ...)`. -/
def extractParameters (parameters : List JSValue) : List Parameter :=
  parameters.map extractParameter

/-- extractRequestBody: `undefined` for a falsy (or absent) argument;
otherwise `required` defaults through `|| false` and one MediaType is
pushed per key of `requestBody.content || {}`. -/
def extractRequestBody (requestBody : Option JSValue) : Option RequestBody :=
  match requestBody with
  | none => none
  | some rb =>
    if rb.truthy then
      some
        { required := jsOr (rb.getField "required") (.vBool false)
          content :=
            (jsOr (rb.getField "content") (.vObj [])).entries.foldl
              (fun acc me => acc ++ [{ mimeType := me.1, schema := me.2.getField "schema" }])
              [] }
    else none

/-- The loop body of extractResponses, for one status-code entry: the
content list is filled only when `response.content` is truthy, and an
empty content list becomes `undefined`. -/
def responseOfEntry (e : String × JSValue) : ResponseSchema :=
  let content : List MediaType :=
    match e.2.getField "content" with
    | some c =>
      if c.truthy then
        c.entries.foldl
          (fun acc me => acc ++ [{ mimeType := me.1, schema := me.2.getField "schema" }])
          []
      else []
    | none => []
  { statusCode := e.1
    description := jsOr (e.2.getField "description") (.vStr "")
    content := if 0 < content.length then some content else none }

/-- extractResponses: one ResponseSchema pushed per key of the responses
object. -/
def extractResponses (responses : JSValue) : List ResponseSchema :=
  responses.entries.foldl (fun result e => result ++ [responseOfEntry e]) []

/-- extractEndpoint: assemble one Endpoint from a path, a method and the
operation object found under the method's lower-case key. -/
def extractEndpoint (path : String) (method : HTTPMethod) (operation : JSValue) :
    Endpoint :=
  { path := path
    method := method
    operationId := operation.getField "operationId"
    summary := operation.getField "summary"
    parameters := extractParameters (jsOr (operation.getField "parameters") (.vArr [])).asArr
    requestBody := extractRequestBody (operation.getField "requestBody")
    responses := extractResponses (jsOr (operation.getField "responses") (.vObj [])) }

/-- extractEndpoints: for each entry of `document.paths || {}` and each of
the seven methods in fixed order, push an endpoint when the operation
value under the method's lower-case key is truthy. -/
def extractEndpoints (document : JSValue) : List Endpoint :=
  let paths := jsOr (document.getField "paths") (.vObj [])
  paths.entries.foldl
    (fun acc pe =>
      httpMethods.foldl
        (fun acc2 m =>
          match pe.2.getField m.lower with
          | some operation =>
            if operation.truthy then acc2 ++ [extractEndpoint pe.1 m operation] else acc2
          | none => acc2)
        acc)
    []

/-- extractComponents: `undefined` for a falsy (or absent) argument, else
a passthrough of the three sections. -/
def extractComponents : Option JSValue → Option Components
| none => none
| some c =>
  if c.truthy then
    some
      { schemas := c.getField "schemas"
        parameters := c.getField "parameters"
        responses := c.getField "responses" }
  else none

/-- extractSpecification: assemble the final record (reached only after
validation, so `document.info` is present there; the `.getD .vNull`
default is unreachable in the facade flows). -/
def extractSpecification (document : JSValue) : OpenAPISpecification :=
  { info := extractInfo ((document.getField "info").getD .vNull)
    endpoints := extractEndpoints document
    components := extractComponents (document.getField "components")
    raw := document }

/-- The try-block of importFromFile: read, detect format, parse,
validate, extract.  File reading is abstracted as a fallible function. -/
def importFromFileBody (d : Deserializers) (readFile : String → Except JSError String)
    (filePath : String) : Except JSError OpenAPISpecification := do
  let content ← readFile filePath
  let document ← parseDocument d content (detectFormat filePath)
  validateSpec document
  pure (extractSpecification document)

/-- importFromFile: the try-block plus its catch, which re-throws typed
errors unchanged and wraps anything else into an OpenAPIImportError
naming the file path and retaining the cause. -/
def importFromFile (d : Deserializers) (readFile : String → Except JSError String)
    (filePath : String) : Except JSError OpenAPISpecification :=
  match importFromFileBody d readFile filePath with
  | .ok spec => .ok spec
  | .error e =>
    if e.isValidationError || e.isOpenAPIImportError then .error e
    else
      .error (.importError ("Failed to import OpenAPI spec from file: " ++ filePath) (some e))

/-- The try-block of importFromUrl: fetch the already-decoded body,
validate, extract.  The HTTP GET is abstracted as a fallible function. -/
def importFromUrlBody (fetch : String → Except JSError JSValue) (url : String) :
    Except JSError OpenAPISpecification := do
  let document ← fetch url
  validateSpec document
  pure (extractSpecification document)

/-- importFromUrl: the try-block plus its catch, mirroring
importFromFile's policy with the message naming the URL. -/
def importFromUrl (fetch : String → Except JSError JSValue) (url : String) :
    Except JSError OpenAPISpecification :=
  match importFromUrlBody fetch url with
  | .ok spec => .ok spec
  | .error e =>
    if e.isValidationError || e.isOpenAPIImportError then .error e
    else
      .error (.importError ("Failed to import OpenAPI spec from URL: " ++ url) (some e))

/-- The spec's reading of per-path endpoint emission: iterate the seven
methods in fixed order, emitting an endpoint exactly for those whose
operation value under the lower-case key is a truthy (existing) object. -/
def endpointsOfPathItem (pe : String × JSValue) : List Endpoint :=
  httpMethods.filterMap
    (fun m =>
      match pe.2.getField m.lower with
      | some operation =>
        if operation.truthy then some (extractEndpoint pe.1 m operation) else none
      | none => none)

/-! Concrete sample inputs used by the witnesses below. -/

/-- The spec's worked example: `/users` with GET and POST, `/users/{id}`
with GET and DELETE, in this document order. -/
def usersPaths : List (String × JSValue) :=
  [("/users", .vObj
     [("get", .vObj [("operationId", .vStr "listUsers")]),
      ("post", .vObj [("operationId", .vStr "createUser")])]),
   ("/users/{id}", .vObj
     [("get", .vObj [("operationId", .vStr "getUser")]),
      ("delete", .vObj [("operationId", .vStr "deleteUser")])])]

/-- A valid document holding `usersPaths`. -/
def usersDoc : JSValue :=
  .vObj [("openapi", .vStr "3.0.0"),
         ("info", .vObj [("title", .vStr "Users API"), ("version", .vStr "1.0.0")]),
         ("paths", .vObj usersPaths)]

/-- A document with `info.title` present but `info.version` missing. -/
def titleOnlyFields : List (String × JSValue) :=
  [("openapi", .vStr "3.0.0"),
   ("info", .vObj [("title", .vStr "T")]),
   ("paths", .vObj [])]

/-- A document whose `openapi` is the empty string and whose
`info.version` is the number 0: both present but falsy. -/
def falsyFields : List (String × JSValue) :=
  [("openapi", .vStr ""),
   ("info", .vObj [("title", .vStr "T"), ("version", .vNum 0)]),
   ("paths", .vObj [])]

/-- Deserializers whose two formats fail with distinct raw errors. -/
def failingDeserializers : Deserializers :=
  { jsonParse := fun _ => .error (.raw "SyntaxError" "Unexpected token")
    yamlParse := fun _ => .error (.raw "YAMLParseError" "bad document") }

/-- A file reader that fails like a missing file. -/
def missingFileReader : String → Except JSError String :=
  fun _ => .error (.raw "Error" "ENOENT: no such file or directory")

/-- A fetch that fails like an unreachable host. -/
def failingFetch : String → Except JSError JSValue :=
  fun _ => .error (.raw "AxiosError" "getaddrinfo ENOTFOUND")

/-- A path item whose `get` key is present but bound to null. -/
def nullGetPaths : List (String × JSValue) :=
  [("/things", .vObj [("get", .vNull)])]

/-- A parameter entry omitting both `required` and `schema`. -/
def bareParam : JSValue :=
  .vObj [("name", .vStr "id"), ("in", .vStr "path")]

/-- An operation without a `parameters` field. -/
def opNoParams : JSValue :=
  .vObj [("operationId", .vStr "ping")]

/-- An operation without a `responses` field. -/
def opNoResponses : JSValue :=
  .vObj [("summary", .vStr "no responses here")]

/-- A responses map written in the document with 404 before 200. -/
def outOfOrderResponses : List (String × JSValue) :=
  [("404", .vObj [("description", .vStr "not found")]),
   ("200", .vObj [("description", .vStr "ok")])]

/-- A responses map written in the document as default, 404, 200, with
one content entry under 200. -/
def mixedResponses : List (String × JSValue) :=
  [("default", .vObj [("description", .vStr "fallback")]),
   ("404", .vObj [("description", .vStr "not found")]),
   ("200", .vObj [("content", .vObj
      [("application/json", .vObj [("schema", .vObj [("type", .vStr "object")])])])])]

/-- A truthy request body with one content entry. -/
def jsonBody : JSValue :=
  .vObj [("content", .vObj
    [("application/json", .vObj [("schema", .vObj [("type", .vStr "object")])])])]

/-- An operation carrying `jsonBody` as its request body. -/
def opWithBody : JSValue :=
  .vObj [("requestBody", jsonBody)]

/-! Helper lemmas. -/

/-- A fold that pushes one element per entry is a map. -/
theorem foldl_push_map {α β : Type} (f : α → β) :
    ∀ (l : List α) (acc : List β),
      l.foldl (fun a x => a ++ [f x]) acc = acc ++ l.map f := by
  intro l
  induction l with
  | nil => intro acc; simp
  | cons x xs ih =>
    intro acc
    simp only [List.foldl_cons, List.map_cons]
    rw [ih]
    simp

/-- The inner method loop of extractEndpoints appends exactly the
filterMap that `endpointsOfPathItem` describes. -/
theorem foldl_methods_eq (pe : String × JSValue) :
    ∀ (ms : List HTTPMethod) (acc : List Endpoint),
      ms.foldl
        (fun acc2 m =>
          match pe.2.getField m.lower with
          | some operation =>
            if operation.truthy then acc2 ++ [extractEndpoint pe.1 m operation] else acc2
          | none => acc2)
        acc
      = acc ++ ms.filterMap
          (fun m =>
            match pe.2.getField m.lower with
            | some operation =>
              if operation.truthy then some (extractEndpoint pe.1 m operation) else none
            | none => none) := by
  intro ms
  induction ms with
  | nil => intro acc; simp
  | cons m ms ih =>
    intro acc
    simp only [List.foldl_cons, List.filterMap_cons]
    rcases h : pe.2.getField m.lower with _ | op
    · simp only [h]
      rw [ih]
    · by_cases ht : op.truthy
      · simp only [h, ht, if_pos]
        rw [ih]
        simp
      · simp only [h, ht]
        rw [ih]
        simp [ht]

/-- extractEndpoints is the concatenation, over the path entries in
document order, of each path item's emitted endpoints. -/
theorem extractEndpoints_eq (document : JSValue) :
    extractEndpoints document =
      (jsOr (document.getField "paths") (.vObj [])).entries.flatMap endpointsOfPathItem := by
  unfold extractEndpoints
  suffices h : ∀ (l : List (String × JSValue)) (acc : List Endpoint),
      l.foldl
        (fun acc pe =>
          httpMethods.foldl
            (fun acc2 m =>
              match pe.2.getField m.lower with
              | some operation =>
                if operation.truthy then acc2 ++ [extractEndpoint pe.1 m operation] else acc2
              | none => acc2)
            acc)
        acc = acc ++ l.flatMap endpointsOfPathItem by
    simpa using h (jsOr (document.getField "paths") (.vObj [])).entries []
  intro l
  induction l with
  | nil => intro acc; simp
  | cons pe l ih =>
    intro acc
    simp only [List.foldl_cons, List.flatMap_cons]
    rw [foldl_methods_eq, ih]
    simp [endpointsOfPathItem]

/-- In a list with pairwise distinct keys, a member is determined by its
key. -/
theorem eq_of_mem_of_nodup_keys {α β : Type} [DecidableEq α] :
    ∀ (l : List (α × β)), (l.map Prod.fst).Nodup →
      ∀ a ∈ l, ∀ b ∈ l, a.1 = b.1 → a = b := by
  intro l
  induction l with
  | nil => simp
  | cons x xs ih =>
    intro hnd a ha b hb hab
    rw [List.map_cons, List.nodup_cons] at hnd
    rcases List.mem_cons.mp ha with rfl | ha2
    · rcases List.mem_cons.mp hb with rfl | hb2
      · rfl
      · exfalso
        apply hnd.1
        rw [hab]
        exact List.mem_map_of_mem Prod.fst hb2
    · rcases List.mem_cons.mp hb with rfl | hb2
      · exfalso
        apply hnd.1
        rw [← hab]
        exact List.mem_map_of_mem Prod.fst ha2
      · exact ih hnd.2 a ha2 b hb2 hab

/-- The per-entry response record, with its content loop expressed as a
map over the content keys. -/
theorem responseOfEntry_eq (e : String × JSValue) :
    responseOfEntry e =
      { statusCode := e.1
        description := jsOr (e.2.getField "description") (.vStr "")
        content :=
          match e.2.getField "content" with
          | some c =>
            if c.truthy then
              if 0 < c.entries.length then
                some (c.entries.map
                  (fun me => { mimeType := me.1, schema := me.2.getField "schema" }))
              else none
            else none
          | none => none } := by
  unfold responseOfEntry
  rcases h : e.2.getField "content" with _ | c
  · simp [h]
  · by_cases ht : c.truthy
    · simp [h, ht, foldl_push_map]
    · simp [h, ht]

/-- validateSpec's error list, in append form: the openapi check, then
the info check (or its two sub-checks), then the paths check. -/
theorem validationMessages_append_form (document : JSValue) :
    validationMessages document =
      (if truthyOpt (document.getField "openapi") then []
       else ["Missing required field: openapi"]) ++
      (if truthyOpt (document.getField "info") then
        (if truthyOpt (((document.getField "info").getD .vNull).getField "title") then []
         else ["Missing required field: info.title"]) ++
        (if truthyOpt (((document.getField "info").getD .vNull).getField "version") then []
         else ["Missing required field: info.version"])
       else ["Missing required field: info"]) ++
      (if truthyOpt (document.getField "paths") then []
       else ["Missing required field: paths"]) := by
  unfold validationMessages
  by_cases h1 : truthyOpt (document.getField "openapi") <;>
    by_cases h2 : truthyOpt (document.getField "info") <;>
      by_cases h3 : truthyOpt (((document.getField "info").getD .vNull).getField "title") <;>
        by_cases h4 : truthyOpt (((document.getField "info").getD .vNull).getField "version") <;>
          by_cases h5 : truthyOpt (document.getField "paths") <;>
            simp [h1, h2, h3, h4, h5]

/-- When some message is in the collected list, validateSpec throws the
ValidationError carrying the whole list. -/
theorem validateSpec_error_of_mem (document : JSValue) (s : String)
    (hs : s ∈ validationMessages document) :
    validateSpec document =
      .error (.validationError "OpenAPI specification validation failed"
        (validationMessages document)) := by
  unfold validateSpec
  have h : 0 < (validationMessages document).length :=
    List.length_pos.mpr (List.ne_nil_of_mem hs)
  simp [h]

/-- A ValidationError is an OpenAPIImportError (subclassing). -/
theorem isOpenAPIImportError_of_isValidationError (e : JSError)
    (h : e.isValidationError = true) : e.isOpenAPIImportError = true := by
  cases e <;> simp_all [JSError.isValidationError, JSError.isOpenAPIImportError]

/-- importFromFile's catch block, on an erroring try block. -/
theorem importFromFile_on_error (d : Deserializers)
    (readFile : String → Except JSError String) (filePath : String) (e0 : JSError)
    (h : importFromFileBody d readFile filePath = .error e0) :
    importFromFile d readFile filePath =
      if (e0.isValidationError || e0.isOpenAPIImportError) = true then .error e0
      else .error (.importError ("Failed to import OpenAPI spec from file: " ++ filePath)
        (some e0)) := by
  unfold importFromFile
  rw [h]

/-- importFromUrl's catch block, on an erroring try block. -/
theorem importFromUrl_on_error (fetch : String → Except JSError JSValue)
    (url : String) (e0 : JSError)
    (h : importFromUrlBody fetch url = .error e0) :
    importFromUrl fetch url =
      if (e0.isValidationError || e0.isOpenAPIImportError) = true then .error e0
      else .error (.importError ("Failed to import OpenAPI spec from URL: " ++ url)
        (some e0)) := by
  unfold importFromUrl
  rw [h]

/-! Claim theorems. -/

/-- Claim C1: for every document whose paths field is an object, the
extracted endpoints list is produced by iterating the path keys in their
original order and, within each path, the seven HTTP methods in the fixed
order GET, POST, PUT, DELETE, PATCH, HEAD, OPTIONS, emitting one Endpoint
exactly when that method's operation object exists (is a truthy value)
on that path — so order and membership are fully determined by the
document. -/
theorem endpoints_deterministic_order (document : JSValue)
    (ps : List (String × JSValue))
    (hpaths : document.getField "paths" = some (.vObj ps)) :
    extractEndpoints document = ps.flatMap endpointsOfPathItem ∧
    ∀ pe ∈ ps, endpointsOfPathItem pe =
      httpMethods.filterMap
        (fun m =>
          match pe.2.getField m.lower with
          | some operation =>
            if operation.truthy then some (extractEndpoint pe.1 m operation) else none
          | none => none) := by
  constructor
  · rw [extractEndpoints_eq, hpaths]
    rfl
  · intro pe _
    rfl

/-- Witness for C1: the spec's worked example yields exactly 4 endpoints
in the order GET /users, POST /users, GET /users/id, DELETE /users/id. -/
theorem endpoints_deterministic_order_witness :
    usersDoc.getField "paths" = some (.vObj usersPaths) ∧
    extractEndpoints usersDoc = usersPaths.flatMap endpointsOfPathItem ∧
    (extractEndpoints usersDoc).map (fun e => (e.path, e.method)) =
      [("/users", HTTPMethod.GET), ("/users", HTTPMethod.POST),
       ("/users/{id}", HTTPMethod.GET), ("/users/{id}", HTTPMethod.DELETE)] :=
  ⟨rfl, (endpoints_deterministic_order usersDoc usersPaths rfl).1, rfl⟩

/-- Claim C9: when a path item binds a method's lower-case key to a falsy
value, no Endpoint is emitted for that path-method pair (the check is a
truthiness test, not key presence). -/
theorem falsy_operation_emits_no_endpoint (document : JSValue)
    (ps : List (String × JSValue)) (p : String) (item v : JSValue) (m : HTTPMethod)
    (hpaths : document.getField "paths" = some (.vObj ps))
    (hkeys : (ps.map Prod.fst).Nodup)
    (hmem : (p, item) ∈ ps)
    (hbound : item.getField m.lower = some v)
    (hfalsy : v.truthy = false) :
    ∀ e ∈ extractEndpoints document, ¬(e.path = p ∧ e.method = m) := by
  intro e he hc
  rw [extractEndpoints_eq, hpaths] at he
  have he2 : e ∈ ps.flatMap endpointsOfPathItem := he
  rcases List.mem_flatMap.mp he2 with ⟨pe, hpe, hein⟩
  unfold endpointsOfPathItem at hein
  rcases List.mem_filterMap.mp hein with ⟨m2, _, hm2⟩
  split at hm2
  case h_2 => exact absurd hm2 (by simp)
  case h_1 operation hop =>
    by_cases ht : operation.truthy
    · rw [if_pos ht] at hm2
      have hee : extractEndpoint pe.1 m2 operation = e := by
        injection hm2
      have hpath : pe.1 = p := by
        rw [← hc.1, ← hee]
        rfl
      have hmeth : m2 = m := by
        have h2 : e.method = m := hc.2
        rw [← hee] at h2
        exact h2
      have hpe_eq : pe = (p, item) :=
        eq_of_mem_of_nodup_keys ps hkeys pe hpe (p, item) hmem hpath
      rw [hpe_eq, hmeth] at hop
      rw [hbound] at hop
      have : v = operation := by injection hop
      rw [← this] at ht
      rw [hfalsy] at ht
      exact absurd ht (by simp)
    · rw [if_neg ht] at hm2
      exact absurd hm2 (by simp)

/-- Witness for C9: a path item with get bound to null emits nothing. -/
theorem falsy_operation_emits_no_endpoint_witness :
    ((JSValue.vObj [("paths", JSValue.vObj nullGetPaths)]).getField "paths" =
      some (.vObj nullGetPaths)) ∧
    ((JSValue.vObj [("get", JSValue.vNull)]).getField HTTPMethod.GET.lower =
      some JSValue.vNull) ∧
    JSValue.vNull.truthy = false ∧
    (∀ e ∈ extractEndpoints (JSValue.vObj [("paths", JSValue.vObj nullGetPaths)]),
      ¬(e.path = "/things" ∧ e.method = HTTPMethod.GET)) ∧
    extractEndpoints (JSValue.vObj [("paths", JSValue.vObj nullGetPaths)]) = [] := by
  refine ⟨rfl, rfl, rfl, ?_, rfl⟩
  exact falsy_operation_emits_no_endpoint
    (JSValue.vObj [("paths", JSValue.vObj nullGetPaths)]) nullGetPaths
    "/things" (JSValue.vObj [("get", JSValue.vNull)]) JSValue.vNull HTTPMethod.GET
    rfl (by simp [nullGetPaths]) (by simp [nullGetPaths]) rfl rfl

/-- Claim C2: validateSpec evaluates all five mandatory-field checks
without short-circuiting — it succeeds exactly when the collected message
list is empty, otherwise it throws the ValidationError carrying the
ordered list of every missing-field message (openapi, then info or its
two sub-fields, then paths); a document with info.title present but
info.version missing fails naming info.version specifically, not a
generic info failure. -/
theorem validateSpec_collects_all_messages (fs : List (String × JSValue)) :
    (validateSpec (.vObj fs) = .ok () ↔ validationMessages (.vObj fs) = []) ∧
    (validationMessages (.vObj fs) ≠ [] →
      validateSpec (.vObj fs) =
        .error (.validationError "OpenAPI specification validation failed"
          (validationMessages (.vObj fs)))) ∧
    validationMessages (.vObj fs) =
      (if truthyOpt ((JSValue.vObj fs).getField "openapi") then []
       else ["Missing required field: openapi"]) ++
      (if truthyOpt ((JSValue.vObj fs).getField "info") then
        (if truthyOpt ((((JSValue.vObj fs).getField "info").getD .vNull).getField "title")
         then [] else ["Missing required field: info.title"]) ++
        (if truthyOpt ((((JSValue.vObj fs).getField "info").getD .vNull).getField "version")
         then [] else ["Missing required field: info.version"])
       else ["Missing required field: info"]) ++
      (if truthyOpt ((JSValue.vObj fs).getField "paths") then []
       else ["Missing required field: paths"]) ∧
    (truthyOpt ((((JSValue.vObj fs).getField "info").getD .vNull).getField "title") = true →
     truthyOpt ((((JSValue.vObj fs).getField "info").getD .vNull).getField "version") = false →
     "Missing required field: info.version" ∈ validationMessages (.vObj fs) ∧
     "Missing required field: info" ∉ validationMessages (.vObj fs) ∧
     validateSpec (.vObj fs) =
       .error (.validationError "OpenAPI specification validation failed"
         (validationMessages (.vObj fs)))) := by
  refine ⟨?_, ?_, validationMessages_append_form _, ?_⟩
  · unfold validateSpec
    by_cases hl : 0 < (validationMessages (.vObj fs)).length
    · simp only [hl, if_pos]
      constructor
      · intro h
        exact absurd h (by simp)
      · intro h
        rw [h] at hl
        simp at hl
    · simp only [hl, if_neg]
      have : (validationMessages (.vObj fs)).length = 0 := by omega
      simp [List.length_eq_zero.mp this]
  · intro h
    obtain ⟨s, hs⟩ := List.exists_mem_of_ne_nil _ h
    exact validateSpec_error_of_mem _ s hs
  · intro ht hv
    have hinfo : truthyOpt ((JSValue.vObj fs).getField "info") = true := by
      rcases hg : (JSValue.vObj fs).getField "info" with _ | w
      · rw [hg] at ht
        simp [truthyOpt, JSValue.getField] at ht
      · rw [hg] at ht
        cases w <;> simp_all [truthyOpt, JSValue.truthy, JSValue.getField]
    have hmem : "Missing required field: info.version" ∈ validationMessages (.vObj fs) := by
      rw [validationMessages_append_form]
      refine List.mem_append.mpr (Or.inl (List.mem_append.mpr (Or.inr ?_)))
      rw [if_pos hinfo]
      refine List.mem_append.mpr (Or.inr ?_)
      rw [hv]
      simp
    have hnot : "Missing required field: info" ∉ validationMessages (.vObj fs) := by
      rw [validationMessages_append_form]
      by_cases h1 : truthyOpt ((JSValue.vObj fs).getField "openapi") = true <;>
        by_cases h5 : truthyOpt ((JSValue.vObj fs).getField "paths") = true <;>
          simp [h1, h5, hinfo, ht, hv]
    exact ⟨hmem, hnot, validateSpec_error_of_mem _ _ hmem⟩

/-- Witness for C2: a document with info.title present but info.version
missing fails naming info.version and not info. -/
theorem validateSpec_collects_all_messages_witness :
    truthyOpt ((((JSValue.vObj titleOnlyFields).getField "info").getD .vNull).getField "title") = true ∧
    truthyOpt ((((JSValue.vObj titleOnlyFields).getField "info").getD .vNull).getField "version") = false ∧
    "Missing required field: info.version" ∈ validationMessages (.vObj titleOnlyFields) ∧
    "Missing required field: info" ∉ validationMessages (.vObj titleOnlyFields) ∧
    validateSpec (.vObj titleOnlyFields) =
      .error (.validationError "OpenAPI specification validation failed"
        (validationMessages (.vObj titleOnlyFields))) := by
  have h := (validateSpec_collects_all_messages titleOnlyFields).2.2.2 rfl rfl
  exact ⟨rfl, rfl, h.1, h.2.1, h.2.2⟩

/-- Claim C8: a mandatory field present but bound to a falsy value is
reported as missing — the validator's checks are truthiness tests, not
key-presence tests. -/
theorem validateSpec_truthiness (fs : List (String × JSValue)) (v : JSValue)
    (hv : v.truthy = false) :
    ((JSValue.vObj fs).getField "openapi" = some v →
      "Missing required field: openapi" ∈ validationMessages (.vObj fs) ∧
      validateSpec (.vObj fs) ≠ .ok ()) ∧
    ((JSValue.vObj fs).getField "info" = some v →
      "Missing required field: info" ∈ validationMessages (.vObj fs) ∧
      validateSpec (.vObj fs) ≠ .ok ()) ∧
    ((JSValue.vObj fs).getField "paths" = some v →
      "Missing required field: paths" ∈ validationMessages (.vObj fs) ∧
      validateSpec (.vObj fs) ≠ .ok ()) ∧
    (∀ info, (JSValue.vObj fs).getField "info" = some info → info.truthy = true →
      info.getField "title" = some v →
      "Missing required field: info.title" ∈ validationMessages (.vObj fs) ∧
      validateSpec (.vObj fs) ≠ .ok ()) ∧
    (∀ info, (JSValue.vObj fs).getField "info" = some info → info.truthy = true →
      info.getField "version" = some v →
      "Missing required field: info.version" ∈ validationMessages (.vObj fs) ∧
      validateSpec (.vObj fs) ≠ .ok ()) := by
  have fail : ∀ s, s ∈ validationMessages (.vObj fs) → validateSpec (.vObj fs) ≠ .ok () := by
    intro s hs
    rw [validateSpec_error_of_mem _ s hs]
    simp
  refine ⟨?_, ?_, ?_, ?_, ?_⟩
  · intro hg
    have hmem : "Missing required field: openapi" ∈ validationMessages (.vObj fs) := by
      rw [validationMessages_append_form, hg]
      simp [truthyOpt, hv]
    exact ⟨hmem, fail _ hmem⟩
  · intro hg
    have hmem : "Missing required field: info" ∈ validationMessages (.vObj fs) := by
      rw [validationMessages_append_form, hg]
      simp [truthyOpt, hv]
    exact ⟨hmem, fail _ hmem⟩
  · intro hg
    have hmem : "Missing required field: paths" ∈ validationMessages (.vObj fs) := by
      rw [validationMessages_append_form, hg]
      simp [truthyOpt, hv]
    exact ⟨hmem, fail _ hmem⟩
  · intro info hg htr hfield
    have hmem : "Missing required field: info.title" ∈ validationMessages (.vObj fs) := by
      rw [validationMessages_append_form, hg]
      simp [truthyOpt, htr, hfield, hv]
    exact ⟨hmem, fail _ hmem⟩
  · intro info hg htr hfield
    have hmem : "Missing required field: info.version" ∈ validationMessages (.vObj fs) := by
      rw [validationMessages_append_form, hg]
      simp [truthyOpt, htr, hfield, hv]
    exact ⟨hmem, fail _ hmem⟩

/-- Witness for C8: openapi bound to the empty string and info.version
bound to 0 are both reported as missing, and validation fails. -/
theorem validateSpec_truthiness_witness :
    (JSValue.vStr "").truthy = false ∧
    (JSValue.vNum 0).truthy = false ∧
    "Missing required field: openapi" ∈ validationMessages (.vObj falsyFields) ∧
    "Missing required field: info.version" ∈ validationMessages (.vObj falsyFields) ∧
    validateSpec (.vObj falsyFields) ≠ .ok () := by
  have h1 := validateSpec_truthiness falsyFields (.vStr "") rfl
  have h2 := validateSpec_truthiness falsyFields (.vNum 0) rfl
  exact ⟨rfl, rfl, (h1.1 rfl).1,
    (h2.2.2.2.2 (.vObj [("title", .vStr "T"), ("version", .vNum 0)]) rfl rfl rfl).1,
    (h1.1 rfl).2⟩

/-- Claim C3: the two import facades propagate already-typed errors
(OpenAPIImportError, hence also ValidationError and parse errors)
unchanged, wrap any other failure once into an OpenAPIImportError whose
message names the file path (resp. the URL) and whose cause retains the
original error, and never surface a raw, unclassified error. -/
theorem import_facade_error_policy (d : Deserializers)
    (readFile : String → Except JSError String)
    (fetch : String → Except JSError JSValue) (filePath url : String) :
    (∀ e, importFromFileBody d readFile filePath = .error e →
      e.isOpenAPIImportError = true →
      importFromFile d readFile filePath = .error e) ∧
    (∀ e, importFromFileBody d readFile filePath = .error e →
      e.isOpenAPIImportError = false →
      importFromFile d readFile filePath =
        .error (.importError ("Failed to import OpenAPI spec from file: " ++ filePath)
          (some e))) ∧
    (∀ e, importFromUrlBody fetch url = .error e →
      e.isOpenAPIImportError = true →
      importFromUrl fetch url = .error e) ∧
    (∀ e, importFromUrlBody fetch url = .error e →
      e.isOpenAPIImportError = false →
      importFromUrl fetch url =
        .error (.importError ("Failed to import OpenAPI spec from URL: " ++ url)
          (some e))) ∧
    (∀ e, importFromFile d readFile filePath = .error e →
      e.isOpenAPIImportError = true) ∧
    (∀ e, importFromUrl fetch url = .error e →
      e.isOpenAPIImportError = true) := by
  have hval : ∀ e : JSError, e.isOpenAPIImportError = false → e.isValidationError = false := by
    intro e h
    cases e <;> simp_all [JSError.isValidationError, JSError.isOpenAPIImportError]
  refine ⟨?_, ?_, ?_, ?_, ?_, ?_⟩
  · intro e hb ht
    unfold importFromFile
    rw [hb]
    simp [ht]
  · intro e hb ht
    unfold importFromFile
    rw [hb]
    simp [ht, hval e ht]
  · intro e hb ht
    unfold importFromUrl
    rw [hb]
    simp [ht]
  · intro e hb ht
    unfold importFromUrl
    rw [hb]
    simp [ht, hval e ht]
  · intro e hb
    rcases h : importFromFileBody d readFile filePath with e0 | s
    · rw [importFromFile_on_error d readFile filePath e0 h] at hb
      by_cases ht : (e0.isValidationError || e0.isOpenAPIImportError) = true
      · rw [if_pos ht] at hb
        have he : e0 = e := by
          injection hb
        rcases Bool.or_eq_true_iff.mp ht with hx | hx
        · rw [← he]
          exact isOpenAPIImportError_of_isValidationError e0 hx
        · rw [← he]
          exact hx
      · rw [if_neg ht] at hb
        have he : JSError.importError ("Failed to import OpenAPI spec from file: " ++ filePath)
            (some e0) = e := by
          injection hb
        rw [← he]
        rfl
    · unfold importFromFile at hb
      rw [h] at hb
      simp at hb
  · intro e hb
    rcases h : importFromUrlBody fetch url with e0 | s
    · rw [importFromUrl_on_error fetch url e0 h] at hb
      by_cases ht : (e0.isValidationError || e0.isOpenAPIImportError) = true
      · rw [if_pos ht] at hb
        have he : e0 = e := by
          injection hb
        rcases Bool.or_eq_true_iff.mp ht with hx | hx
        · rw [← he]
          exact isOpenAPIImportError_of_isValidationError e0 hx
        · rw [← he]
          exact hx
      · rw [if_neg ht] at hb
        have he : JSError.importError ("Failed to import OpenAPI spec from URL: " ++ url)
            (some e0) = e := by
          injection hb
        rw [← he]
        rfl
    · unfold importFromUrl at hb
      rw [h] at hb
      simp at hb

/-- Witness for C3: a missing file is wrapped into an OpenAPIImportError
naming the path and keeping the raw cause; so is a failing fetch. -/
theorem import_facade_error_policy_witness :
    importFromFileBody failingDeserializers missingFileReader "missing.json" =
      .error (.raw "Error" "ENOENT: no such file or directory") ∧
    (JSError.raw "Error" "ENOENT: no such file or directory").isOpenAPIImportError = false ∧
    importFromFile failingDeserializers missingFileReader "missing.json" =
      .error (.importError ("Failed to import OpenAPI spec from file: " ++ "missing.json")
        (some (.raw "Error" "ENOENT: no such file or directory"))) ∧
    importFromUrl failingFetch "http://api.test/spec" =
      .error (.importError ("Failed to import OpenAPI spec from URL: " ++ "http://api.test/spec")
        (some (.raw "AxiosError" "getaddrinfo ENOTFOUND"))) := by
  have h := import_facade_error_policy failingDeserializers missingFileReader failingFetch
    "missing.json" "http://api.test/spec"
  exact ⟨rfl, rfl, h.2.1 _ rfl rfl, h.2.2.2.1 _ rfl rfl⟩

/-- extractResponses over an object's stored fields is the elementwise
map of the per-entry record (content loop expressed as a map). -/
theorem extractResponses_map (l : List (String × JSValue)) :
    extractResponses (.vObj l) =
      l.map (fun e =>
        { statusCode := e.1
          description := jsOr (e.2.getField "description") (.vStr "")
          content :=
            match e.2.getField "content" with
            | some c =>
              if c.truthy then
                if 0 < c.entries.length then
                  some (c.entries.map
                    (fun me => { mimeType := me.1, schema := me.2.getField "schema" }))
                else none
              else none
            | none => none }) := by
  have h1 : extractResponses (.vObj l) = l.map responseOfEntry := by
    unfold extractResponses
    rw [show (JSValue.vObj l).entries = l from rfl, foldl_push_map]
    simp
  rw [h1, funext responseOfEntry_eq]

/-- Claim C4 (counterexample): a responses map written in the document
with key 404 before key 200 is created by the engine with 200 stored
first (array-index keys are enumerated in ascending numeric order before
anything else), so the program emits the 200 response before the 404
one — not in document order as the claim states. -/
theorem responses_document_order_counterexample :
    outOfOrderResponses.map Prod.fst = ["404", "200"] ∧
    (esOwnPropertyOrder outOfOrderResponses).map Prod.fst = ["200", "404"] ∧
    (extractResponses (.vObj (esOwnPropertyOrder outOfOrderResponses))).map
      (fun r => r.statusCode) = ["200", "404"] ∧
    (extractResponses (.vObj (esOwnPropertyOrder outOfOrderResponses))).map
      (fun r => r.statusCode) ≠ outOfOrderResponses.map Prod.fst := by
  refine ⟨rfl, by decide, by decide, by decide⟩

/-- Claim C4 (amended): for a responses map written in the document as
the pairs rs — with no response value and no iterated content value
null, where the source would throw a TypeError instead of extracting —
the program emits exactly one ResponseSchema per status-code key in the
engine's own-property order: array-index-like status codes first in
ascending numeric order, then the remaining keys (such as default) in
document order; description defaults to the empty string when absent,
and content is left absent — never an empty list — when there are zero
content entries, otherwise holds one MediaType per content key whose
mimeType is that key. -/
theorem responses_es_property_order (rs : List (String × JSValue))
    (_hresp : ∀ e ∈ rs, e.2.isNull = false)
    (_hcont : ∀ e ∈ rs, ∀ me ∈ responseContentEntries e.2, me.2.isNull = false) :
    extractResponses (.vObj (esOwnPropertyOrder rs)) =
      (esOwnPropertyOrder rs).map (fun e =>
        { statusCode := e.1
          description := jsOr (e.2.getField "description") (.vStr "")
          content :=
            match e.2.getField "content" with
            | some c =>
              if c.truthy then
                if 0 < c.entries.length then
                  some (c.entries.map
                    (fun me => { mimeType := me.1, schema := me.2.getField "schema" }))
                else none
              else none
            | none => none }) ∧
    esOwnPropertyOrder rs =
      sortByIndexValue (rs.filter (fun e => (arrayIndexValue e.1).isSome)) ++
        rs.filter (fun e => (arrayIndexValue e.1).isNone) :=
  ⟨extractResponses_map (esOwnPropertyOrder rs), rfl⟩

/-- Witness for C4 (amended): the default/404/200 document extracts in
the engine order 200, 404, default. -/
theorem responses_es_property_order_witness :
    (∀ e ∈ mixedResponses, e.2.isNull = false) ∧
    (∀ e ∈ mixedResponses, ∀ me ∈ responseContentEntries e.2, me.2.isNull = false) ∧
    (extractResponses (.vObj (esOwnPropertyOrder mixedResponses))).map
      (fun r => r.statusCode) = ["200", "404", "default"] := by
  have h := responses_es_property_order mixedResponses (by decide) (by decide)
  refine ⟨by decide, by decide, ?_⟩
  rw [h.1]
  rfl

/-- Claim C5 (counterexample): the claim says the extracted requestBody
is absent exactly when `operation.requestBody` is absent; but for the
operation whose requestBody key is present and bound to `false`, the
field is present while the extraction still yields absent. -/
theorem requestBody_presence_counterexample :
    (JSValue.vObj [("requestBody", JSValue.vBool false)]).getField "requestBody" =
      some (JSValue.vBool false) ∧
    (extractEndpoint "/users" HTTPMethod.POST
      (JSValue.vObj [("requestBody", JSValue.vBool false)])).requestBody = none :=
  ⟨rfl, rfl⟩

/-- Claim C5 (amended): the extracted requestBody is absent exactly when
`operation.requestBody` is absent or falsy; when present and truthy, its
required field defaults through `|| false` and its content list has one
MediaType per key of `requestBody.content` in document order, each paired
with that entry's schema sub-field. -/
theorem requestBody_truthy_characterization (path : String) (m : HTTPMethod)
    (op : JSValue) :
    ((extractEndpoint path m op).requestBody = none ↔
      truthyOpt (op.getField "requestBody") = false) ∧
    (∀ rb, op.getField "requestBody" = some rb → rb.truthy = true →
      (extractEndpoint path m op).requestBody =
        some
          { required := jsOr (rb.getField "required") (.vBool false)
            content :=
              (jsOr (rb.getField "content") (.vObj [])).entries.map
                (fun me => { mimeType := me.1, schema := me.2.getField "schema" }) }) := by
  constructor
  · show extractRequestBody (op.getField "requestBody") = none ↔ _
    rcases h : op.getField "requestBody" with _ | rb
    · simp [extractRequestBody, truthyOpt]
    · by_cases ht : rb.truthy
      · simp [extractRequestBody, truthyOpt, ht]
      · simp [extractRequestBody, truthyOpt, ht]
  · intro rb hg ht
    show extractRequestBody (op.getField "requestBody") = _
    rw [hg]
    simp [extractRequestBody, ht, foldl_push_map]

/-- Witness for C5 (amended): an operation with a truthy request body
holding one JSON content entry extracts to a present body whose single
MediaType carries the document's MIME key and schema. -/
theorem requestBody_truthy_characterization_witness :
    opWithBody.getField "requestBody" = some jsonBody ∧
    jsonBody.truthy = true ∧
    (extractEndpoint "/users" HTTPMethod.POST opWithBody).requestBody =
      some
        { required := jsOr (jsonBody.getField "required") (.vBool false)
          content :=
            (jsOr (jsonBody.getField "content") (.vObj [])).entries.map
              (fun me => { mimeType := me.1, schema := me.2.getField "schema" }) } ∧
    (extractEndpoint "/users" HTTPMethod.POST opWithBody).requestBody =
      some
        { required := .vBool false
          content := [{ mimeType := "application/json"
                        schema := some (.vObj [("type", .vStr "object")]) }] } := by
  refine ⟨rfl, rfl, ?_, rfl⟩
  exact (requestBody_truthy_characterization "/users" HTTPMethod.POST opWithBody).2
    jsonBody rfl rfl

/-- Claim C6: each entry of an operation's parameters list (defaulting to
the empty list when the field is absent) maps through extractParameter;
required defaults to false and schema to the string-typed schema when
omitted, while name, in and description are copied from the entry. -/
theorem parameter_defaults (ps : List JSValue) (p : JSValue) (path : String)
    (m : HTTPMethod) (op : JSValue) :
    extractParameters ps = ps.map extractParameter ∧
    (extractParameter p).name = p.getField "name" ∧
    (extractParameter p).«in» = p.getField "in" ∧
    (extractParameter p).description = p.getField "description" ∧
    (p.getField "required" = none → (extractParameter p).required = .vBool false) ∧
    (p.getField "schema" = none →
      (extractParameter p).schema = .vObj [("type", .vStr "string")]) ∧
    (op.getField "parameters" = none → (extractEndpoint path m op).parameters = []) := by
  refine ⟨rfl, rfl, rfl, rfl, ?_, ?_, ?_⟩
  · intro h
    simp [extractParameter, h, jsOr]
  · intro h
    simp [extractParameter, h, jsOr]
  · intro h
    show extractParameters (jsOr (op.getField "parameters") (.vArr [])).asArr = []
    rw [h]
    rfl

/-- Witness for C6: a parameter entry omitting required and schema gets
the documented defaults, and an operation without a parameters field
extracts an empty parameter list. -/
theorem parameter_defaults_witness :
    bareParam.getField "required" = none ∧
    bareParam.getField "schema" = none ∧
    opNoParams.getField "parameters" = none ∧
    (extractParameter bareParam).required = .vBool false ∧
    (extractParameter bareParam).schema = .vObj [("type", .vStr "string")] ∧
    (extractParameter bareParam).name = some (.vStr "id") ∧
    (extractEndpoint "/things" HTTPMethod.GET opNoParams).parameters = [] := by
  have h := parameter_defaults [] bareParam "/things" HTTPMethod.GET opNoParams
  exact ⟨rfl, rfl, rfl, h.2.2.2.2.1 rfl, h.2.2.2.2.2.1 rfl, rfl, h.2.2.2.2.2.2 rfl⟩

/-- Claim C7: the document text is handed to the YAML deserializer
exactly when the lower-cased path ends in .yaml or .yml and to the JSON
deserializer otherwise, and any deserializer failure is re-raised as an
OpenAPIImportError with the fixed message, wrapping the original cause,
while success passes the parsed value through untouched. -/
theorem format_selection_and_parse_wrapping (d : Deserializers)
    (filePath content : String) :
    (detectFormat filePath = Format.yaml ↔
      (jsEndsWith (jsToLowerCase filePath) ".yaml" = true ∨
       jsEndsWith (jsToLowerCase filePath) ".yml" = true)) ∧
    rawDeserialize d Format.yaml content = d.yamlParse content ∧
    rawDeserialize d Format.json content = d.jsonParse content ∧
    (∀ v, rawDeserialize d (detectFormat filePath) content = .ok v →
      parseDocument d content (detectFormat filePath) = .ok v) ∧
    (∀ e, rawDeserialize d (detectFormat filePath) content = .error e →
      parseDocument d content (detectFormat filePath) =
        .error (.importError "Failed to parse document" (some e))) := by
  refine ⟨?_, rfl, rfl, ?_, ?_⟩
  · unfold detectFormat
    by_cases h1 : jsEndsWith (jsToLowerCase filePath) ".yaml" = true <;>
      by_cases h2 : jsEndsWith (jsToLowerCase filePath) ".yml" = true <;>
        simp [h1, h2]
  · intro v h
    unfold parseDocument
    rw [h]
  · intro e h
    unfold parseDocument
    rw [h]

/-- Witness for C7: an upper-case .YAML path selects the YAML
deserializer, and its failure surfaces as the fixed-message import
error wrapping the cause. -/
theorem format_selection_and_parse_wrapping_witness :
    detectFormat "API.YAML" = Format.yaml ∧
    rawDeserialize failingDeserializers (detectFormat "API.YAML") "a: 1" =
      .error (.raw "YAMLParseError" "bad document") ∧
    parseDocument failingDeserializers "a: 1" (detectFormat "API.YAML") =
      .error (.importError "Failed to parse document"
        (some (.raw "YAMLParseError" "bad document"))) := by
  have h := format_selection_and_parse_wrapping failingDeserializers "API.YAML" "a: 1"
  have hd : detectFormat "API.YAML" = Format.yaml := h.1.mpr (Or.inl (by decide))
  have hraw : rawDeserialize failingDeserializers (detectFormat "API.YAML") "a: 1" =
      .error (.raw "YAMLParseError" "bad document") := by
    rw [hd]
    rfl
  exact ⟨hd, hraw, h.2.2.2.2 _ hraw⟩

/-- Claim C10: an operation without a responses field still extracts,
and its responses list is empty (the missing map defaults to the empty
object rather than raising). -/
theorem missing_responses_extracts_empty (path : String) (m : HTTPMethod)
    (op : JSValue) (h : op.getField "responses" = none) :
    (extractEndpoint path m op).responses = [] := by
  show extractResponses (jsOr (op.getField "responses") (.vObj [])) = []
  rw [h]
  rfl

/-- Witness for C10: a concrete operation lacking responses yields an
endpoint whose responses list is empty. -/
theorem missing_responses_extracts_empty_witness :
    opNoResponses.getField "responses" = none ∧
    (extractEndpoint "/ping" HTTPMethod.GET opNoResponses).responses = [] :=
  ⟨rfl, missing_responses_extracts_empty "/ping" HTTPMethod.GET opNoResponses rfl⟩

end OpenAPIImporter
